import Mathlib

/-!
Verification of the quiz-chain solver (`main.py`): the Chain Driver
(`solve_quiz_chain`), the Page Analyzer (`analyze_quiz_page`), the Answer
Resolver (`solve_question`) and the retrying I/O wrappers
(`fetch_page_with_playwright`, `submit_answer`).

The Python code is shallowly embedded.  External collaborators (the
browser-based page fetcher, the generative-model client, the CSV loader and
the HTTP POST client) are passed in as explicit oracles, so every theorem
quantifies over their behaviour.  The heuristic text extraction in the source
is built from Python `re` searches; a small regular-expression evaluator with
Python's leftmost / greedy-with-backtracking semantics is defined first, and
each regex literal from the source is transcribed into its syntax tree.
-/

/-! ### Character classes (Python `re` semantics, ASCII range)

`isWsChar` models Python `\s` (space, tab, LF, VT, FF, CR); `isWordChar`
models `\w` restricted to ASCII (letters, digits, underscore). -/

def isWsChar (c : Char) : Bool :=
  c = ' ' || c = Char.ofNat 9 || c = Char.ofNat 10 || c = Char.ofNat 11 ||
  c = Char.ofNat 12 || c = Char.ofNat 13

def isWordChar (c : Char) : Bool :=
  c.isAlphanum || c = Char.ofNat 95

/-- Case-insensitive (`ci = true`) or exact character comparison. -/
def chEq (ci : Bool) (a b : Char) : Bool :=
  if ci then a.toLower == b.toLower else a == b

/-! ### A tiny regex evaluator

`RE` covers exactly the constructs used by the regexes in `main.py`:
single-character classes, greedy `+`, `*` and `?`, literals (as sequences of
classes), and the word-boundary assertion `\b`.  `reMt` is a
continuation-passing matcher; alternatives are tried in the same order as
Python's backtracking engine (longest repetition first, optional group
present first), so the first success reported equals Python's match. -/

inductive RE where
  | eps : RE
  | bnd : RE
  | cls : (Char → Bool) → RE
  | rep1 : (Char → Bool) → RE
  | rep0 : (Char → Bool) → RE
  | opt : RE → RE
  | seq : RE → RE → RE

/-- A literal string as a regex, each character compared with `chEq ci`. -/
def strRE (ci : Bool) (s : String) : RE :=
  s.data.foldr (fun c r => RE.seq (.cls (chEq ci c)) r) .eps

/-- Length of the maximal run of characters satisfying `p`. -/
def runLen (p : Char → Bool) : List Char → Nat
  | [] => 0
  | c :: r => if p c then runLen p r + 1 else 0

/-- Try the continuation at offsets `i+L, i+L-1, ..., i+lo`, first success
wins: the greedy order in which Python backtracks a repetition. -/
def tryDown {α : Type} (k : Nat → Option α) (i lo : Nat) : Nat → Option α
  | 0 => if lo = 0 then k i else none
  | L + 1 =>
    if L + 1 < lo then none
    else
      match k (i + (L + 1)) with
      | some x => some x
      | none => tryDown k i lo L

/-- Word-boundary test at position `i` of `t` (positions outside the text
count as non-word). -/
def wordBoundary (t : List Char) (i : Nat) : Bool :=
  let w : Nat → Bool := fun n =>
    match t.get? n with
    | some c => isWordChar c
    | none => false
  (if i = 0 then false else w (i - 1)) != w i

/-- CPS matcher: try to match `r` at position `i` of `t`, calling `k` with
every candidate end position in Python's backtracking order. -/
def reMt {α : Type} (t : List Char) : RE → Nat → (Nat → Option α) → Option α
  | .eps, i, k => k i
  | .bnd, i, k => if wordBoundary t i then k i else none
  | .cls p, i, k =>
    match t.get? i with
    | some c => if p c then k (i + 1) else none
    | none => none
  | .rep1 p, i, k => tryDown k i 1 (runLen p (t.drop i))
  | .rep0 p, i, k => tryDown k i 0 (runLen p (t.drop i))
  | .opt r, i, k =>
    match reMt t r i k with
    | some x => some x
    | none => k i
  | .seq a b, i, k => reMt t a i (fun j => reMt t b j k)

/-- `re.search` with a single capture group: the pattern is `pre (grp) post`;
scan start positions left to right, return the span `(j, e)` of the group of
the first match. -/
def searchSpan (t : List Char) (pre grp post : RE) : Option (Nat × Nat) :=
  (List.range (t.length + 1)).findSome? (fun i =>
    reMt t pre i (fun j =>
      reMt t grp j (fun e =>
        reMt t post e (fun _ => some (j, e)))))

/-- Substring of `s` from position `j` (inclusive) to `e` (exclusive). -/
def strSlice (s : String) (j e : Nat) : String :=
  ⟨(s.data.drop j).take (e - j)⟩

/-- `re.search` returning the text of the capture group. -/
def searchGroup (s : String) (pre grp post : RE) : Option String :=
  (searchSpan s.data pre grp post).map (fun je => strSlice s je.1 je.2)

/-- One scan step of `re.findall`: spans of non-overlapping matches of `grp`,
scanning left to right and resuming after each match.  `fuel` bounds the
recursion; every pattern passed here matches at least one character, so
`max e (i+1)` never actually truncates a match. -/
def faGo (t : List Char) (grp : RE) : Nat → Nat → List (Nat × Nat)
  | 0, _ => []
  | fuel + 1, i =>
    if i > t.length then []
    else
      match reMt t grp i (fun e => some e) with
      | some e => (i, e) :: faGo t grp fuel (max e (i + 1))
      | none => faGo t grp fuel (i + 1)

/-- `re.findall` (match texts of a groupless pattern). -/
def findallStr (s : String) (grp : RE) : List String :=
  (faGo s.data grp (s.data.length + 2) 0).map (fun je => strSlice s je.1 je.2)

/-! ### Character classes appearing in the source regexes -/

/-- `[^\s<>"]` — the URL-ish character class used throughout `main.py`. -/
def urlChar (c : Char) : Bool :=
  !(isWsChar c || c = '<' || c = '>' || c = Char.ofNat 34)

/-- The first submit-URL regex of `analyze_quiz_page` is
`POST\s+(?:to\s+)?(?:JSON\s+to\s+)?([https://[^\s<>"]+/submit[^\s<>"]*)`.
Its intended `https://` sits inside square brackets, so it parses as the
character class `[https://[^\s<>"]`: the literal characters
`h t p s : / [ ^ < > "` plus whitespace, case-insensitively. -/
def pat1Cls (c : Char) : Bool :=
  c.toLower = 'h' || c.toLower = 't' || c.toLower = 'p' || c.toLower = 's' ||
  c = ':' || c = '/' || c = '[' || c = '^' || c = '<' || c = '>' ||
  c = Char.ofNat 34 || isWsChar c

/-- `[^\s<>"'()]` from the bare-URL CSV pattern. -/
def csvUrlChar (c : Char) : Bool :=
  !(isWsChar c || c = '<' || c = '>' || c = Char.ofNat 34 ||
    c = Char.ofNat 39 || c = '(' || c = ')')

/-- `["']`. -/
def quoteChar (c : Char) : Bool := c = Char.ofNat 34 || c = Char.ofNat 39

/-- `[^"']`. -/
def notQuote (c : Char) : Bool := !(quoteChar c)

/-- `[^\)]`. -/
def notCParen (c : Char) : Bool := !(c = ')')

/-- `[:\s]` from the cutoff pattern. -/
def colonWs (c : Char) : Bool := c = ':' || isWsChar c

def digitChar (c : Char) : Bool := c.isDigit

def nonWsChar (c : Char) : Bool := !(isWsChar c)

/-! ### The regexes of `analyze_quiz_page` (main.py lines 151-204) -/

/-- Everything before the capture group in the first submit-URL regex:
`POST\s+(?:to\s+)?(?:JSON\s+to\s+)?`, case-insensitive. -/
def pat1Before : RE :=
  .seq (strRE true "POST") (.seq (.rep1 isWsChar)
    (.seq (.opt (.seq (strRE true "to") (.rep1 isWsChar)))
      (.opt (.seq (strRE true "JSON") (.seq (.rep1 isWsChar)
        (.seq (strRE true "to") (.rep1 isWsChar)))))))

/-- The capture group of the first submit-URL regex:
`([https://[^\s<>"]+/submit[^\s<>"]*)`, with the malformed leading class. -/
def pat1Grp : RE :=
  .seq (.rep1 pat1Cls) (.seq (strRE true "/submit") (.rep0 urlChar))

/-- The second submit-URL regex, `(https://[^\s<>"]+/submit)`,
case-insensitive; the whole pattern is the group. -/
def pat2Grp : RE :=
  .seq (strRE true "https://") (.seq (.rep1 urlChar) (strRE true "/submit"))

/-- `https://[^\s<>"]+`, case-sensitive; used by `re.findall` over the page
text (line 193) and by the model-response extraction (line 183). -/
def urlTokGrp : RE := .seq (strRE false "https://") (.rep1 urlChar)

def searchPat1 (s : String) : Option String :=
  searchGroup s pat1Before pat1Grp .eps

def searchPat2 (s : String) : Option String :=
  searchGroup s .eps pat2Grp .eps

def findallUrls (s : String) : List String := findallStr s urlTokGrp

/-! ### Python string helpers -/

/-- Python `str.strip()` (whitespace from both ends). -/
def pyStrip (s : String) : String :=
  ⟨((s.data.dropWhile isWsChar).reverse.dropWhile isWsChar).reverse⟩

/-- Python `str.lower()` (ASCII case folding). -/
def lowerStr (s : String) : String := ⟨s.data.map Char.toLower⟩

/-- Exact prefix test at position `i`. -/
def startsAt (t : List Char) (i : Nat) : List Char → Bool
  | [] => true
  | c :: r =>
    match t.get? i with
    | some c2 => c == c2 && startsAt t (i + 1) r
    | none => false

/-- Case-insensitive prefix test at position `i`. -/
def startsAtCI (t : List Char) (i : Nat) : List Char → Bool
  | [] => true
  | c :: r =>
    match t.get? i with
    | some c2 => c.toLower == c2.toLower && startsAtCI t (i + 1) r
    | none => false

/-- Case-insensitive list equality. -/
def listEqCI : List Char → List Char → Bool
  | [], [] => true
  | a :: as, b :: bs => a.toLower == b.toLower && listEqCI as bs
  | _, _ => false

/-- Does `s` end (case-insensitively) with `pat`? -/
def endsWithCI (s pat : String) : Bool :=
  decide (pat.data.length ≤ s.data.length) &&
  listEqCI (s.data.drop (s.data.length - pat.data.length)) pat.data

/-- Python `sub in s` (substring test). -/
def hasSub (s pat : String) : Bool :=
  (List.range (s.data.length + 1)).any (fun i => startsAt s.data i pat.data)

/-- Python `s.startswith(p)`. -/
def strStarts (s p : String) : Bool := startsAt s.data 0 p.data

/-- Does `https://` occur case-insensitively anywhere in `s`?  Texts where
this is false contain no URL any of the analyzer's regexes could find. -/
def hasHttpsCI (s : String) : Bool :=
  (List.range (s.data.length + 1)).any
    (fun i => startsAtCI s.data i "https://".data)

/-- Python `s[:n]` (slicing by code points). -/
def pyTake (s : String) (n : Nat) : String := ⟨s.data.take n⟩

/-! ### Page Analyzer (`analyze_quiz_page`, main.py lines 148-209) -/

structure PageAnalysis where
  submit_url : String
  question : String
  deriving DecidableEq, Repr

/-- The hardcoded last-resort endpoint (main.py line 202). -/
def defaultSubmitUrl : String := "https://tds-llm-analysis.s-anand.net/submit"

/-- URL extraction from the model response (main.py lines 179-188):
`response.text.strip()`, then `re.search(r'https://[^\s<>"]+', ...)`.
A failed model call (`.error`) is caught and yields nothing. -/
def gemUrlOf (gem : Except String String) : Option String :=
  match gem with
  | .error _ => none
  | .ok t => searchGroup (pyStrip t) .eps urlTokGrp .eps

/-- `analyze_quiz_page(page_text)`.  `gem` is the outcome of the one
`model.generate_content` call (the only external effect).  Mirrors the
source's cascade: the two direct regexes, then the model, then any found URL
containing "submit", then the first found URL, then the hardcoded default. -/
def analyze_quiz_page (page_text : String) (gem : Except String String) :
    PageAnalysis :=
  let question := pyTake page_text 500
  match (searchPat1 page_text).orElse (fun _ => searchPat2 page_text) with
  | some u => ⟨u, question⟩
  | none =>
    match gemUrlOf gem with
    | some u => ⟨u, question⟩
    | none =>
      let urls := findallUrls page_text
      match urls.find? (fun u => hasSub (lowerStr u) "submit") with
      | some u => ⟨u, question⟩
      | none =>
        match urls with
        | u :: _ => ⟨u, question⟩
        | [] => ⟨defaultSubmitUrl, question⟩
/-! ### Python numeric parsing (for the answer-typing cascade) -/

/-- Python `'.' in s`. -/
def hasDot (s : String) : Bool := s.data.any (fun c => c = Char.ofNat 46)

/-- Optional leading sign of a numeric literal: negativity flag and rest. -/
def stripSign (cs : List Char) : Bool × List Char :=
  match cs with
  | c :: r =>
    if c = '+' then (false, r)
    else if c = '-' then (true, r)
    else (false, cs)
  | [] => (false, [])


/-- Consume a maximal well-formed run of digits with single interior
underscores (Python's numeric-literal digit grammar).  Returns the value,
the digit count and the rest; `none` when an interior underscore is not
followed by a digit (Python then rejects the whole literal). -/
def duGo (acc len : Nat) : List Char → Option (Nat × Nat × List Char)
  | [] => some (acc, len, [])
  | c :: r =>
    if digitChar c then duGo (acc * 10 + (c.toNat - 48)) (len + 1) r
    else if c = Char.ofNat 95 then
      if len = 0 then some (acc, len, c :: r)
      else
        match r with
        | c2 :: r2 =>
          if digitChar c2 then duGo (acc * 10 + (c2.toNat - 48)) (len + 1) r2
          else none
        | [] => none
    else some (acc, len, c :: r)

/-- Python `int(s)`: optional surrounding whitespace, optional sign, then a
nonempty digit run; anything else raises (here: `none`). -/
def pyParseInt (s : String) : Option Int :=
  let cs := ((s.data.dropWhile isWsChar).reverse.dropWhile isWsChar).reverse
  let sb := stripSign cs
  match duGo 0 0 sb.2 with
  | some (v, len, []) =>
    if len = 0 then none
    else some (if sb.1 then -(v : Int) else (v : Int))
  | _ => none

/-- Mantissa of a Python float literal: integer digits, then an optional
dot and fractional digits.  Returns the scaled mantissa `m` and fraction
length `fl` (the value is `m / 10 ^ fl`), the total digit count, and the
rest. -/
def parseMant (body : List Char) : Option (Nat × Nat × Nat × List Char) :=
  match duGo 0 0 body with
  | none => none
  | some (ip, il, rest1) =>
    match rest1 with
    | c :: r =>
      if c = Char.ofNat 46 then
        match duGo 0 0 r with
        | none => none
        | some (fp, fl, rest2) =>
          some (ip * 10 ^ fl + fp, fl, il + fl, rest2)
      else some (ip, 0, il, rest1)
    | [] => some (ip, 0, il, [])

/-- Exponent tail of a Python float literal (after the `e`). -/
def parseExp (cs : List Char) : Option (Int × List Char) :=
  let sb := stripSign cs
  match duGo 0 0 sb.2 with
  | some (v, len, rest) =>
    if len = 0 then none
    else some (if sb.1 then -(v : Int) else (v : Int), rest)
  | none => none

/-- Python `float(s)` restricted to finite decimal literals: optional sign,
mantissa, optional exponent; the value is assembled with `mkRat` over
kernel-computable `Nat` powers.  The `inf`/`nan` spellings are not modeled;
the verified code paths only attempt `float` on strings containing a dot. -/
def pyParseFloat (s : String) : Option Rat :=
  let cs := ((s.data.dropWhile isWsChar).reverse.dropWhile isWsChar).reverse
  let sb := stripSign cs
  let sgn : Int → Int := fun n => if sb.1 then -n else n
  match parseMant sb.2 with
  | none => none
  | some (m, fl, dl, rest) =>
    if dl = 0 then none
    else
      match rest with
      | [] => some (mkRat (sgn (m : Int)) (10 ^ fl))
      | c :: r =>
        if c.toLower = Char.ofNat 101 then
          match parseExp r with
          | some (ex, []) =>
            some (mkRat (sgn ((m : Int) * ((10 ^ ex.toNat : Nat) : Int)))
              (10 ^ fl * 10 ^ ((-ex).toNat)))
          | _ => none
        else none

/-! ### Answer values and the typing cascade (main.py lines 315-331) -/

inductive AnswerValue where
  | int : Int → AnswerValue
  | float : Rat → AnswerValue
  | bool : Bool → AnswerValue
  | str : String → AnswerValue
  deriving DecidableEq, Repr

/-- The boolean/raw-string tail of the typing cascade (main.py 324-328). -/
def boolOrStr (a : String) : AnswerValue :=
  if lowerStr a = "true" || lowerStr a = "yes" then .bool true
  else if lowerStr a = "false" || lowerStr a = "no" then .bool false
  else .str a

/-- Typing of the cleaned model answer exactly as the source orders it
(main.py 319-328): when the text contains a dot, `float` is attempted,
otherwise `int`; a parse failure falls to the boolean keywords, else the
raw string. -/
def typeAnswer (a : String) : AnswerValue :=
  if hasDot a then
    match pyParseFloat a with
    | some q => .float q
    | none => boolOrStr a
  else
    match pyParseInt a with
    | some n => .int n
    | none => boolOrStr a

/-- Typing in the order the specification words it: "integer if it parses
as one, else float if it contains a decimal point and parses, else boolean
if it case-insensitively equals a yes/no or true/false token, else the raw
stripped string". -/
def typeAnswerSpecOrder (a : String) : AnswerValue :=
  match pyParseInt a with
  | some n => .int n
  | none =>
    if hasDot a then
      match pyParseFloat a with
      | some q => .float q
      | none => boolOrStr a
    else boolOrStr a

/-- Model-answer cleanup (main.py line 317): strip surrounding whitespace,
then delete every backtick, double quote and single quote. -/
def cleanAnswerText (t : String) : String :=
  ⟨(pyStrip t).data.filter
    (fun c => !(c = Char.ofNat 96 || c = Char.ofNat 34 || c = Char.ofNat 39))⟩

/-! ### `urllib.parse.urljoin`, modeled -/

/-- Index of the first occurrence of `pat` in `t`, if any. -/
def findSubIdx (t pat : List Char) : Option Nat :=
  (List.range (t.length + 1)).find? (fun i => startsAt t i pat)

/-- Python `urllib.parse.urljoin`, modeled for the URL shapes this program
meets: absolute `http(s)` references are returned as-is; otherwise the base
splits into scheme, network location and path, and the reference replaces
the whole path (when it starts with `/`), the network location (when it
starts with `//`), or the last path segment.  Query/fragment handling and
dot-segment normalization are not modeled. -/
def pyUrljoin (base rel : String) : String :=
  if rel = "" then base
  else if strStarts rel "http://" || strStarts rel "https://" then rel
  else
    match findSubIdx base.data "://".data with
    | none => rel
    | some i =>
      let scheme : String := ⟨base.data.take i⟩
      let rest := base.data.drop (i + 3)
      let netloc : String := ⟨rest.takeWhile (fun c => !(c = '/'))⟩
      let path : String := ⟨rest.dropWhile (fun c => !(c = '/'))⟩
      if strStarts rel "//" then scheme ++ ":" ++ rel
      else if strStarts rel "/" then scheme ++ "://" ++ netloc ++ rel
      else
        let dir : String := ⟨(path.data.reverse.dropWhile (fun c => !(c = '/'))).reverse⟩
        let dir2 := if dir = "" then "/" else dir
        scheme ++ "://" ++ netloc ++ dir2 ++ rel

/-! ### Answer Resolver (`solve_question`, main.py lines 212-331) -/

/-- `Scrape\s+([^\s]+)` (IGNORECASE), main.py line 216. -/
def searchScrape (q : String) : Option String :=
  searchGroup q (.seq (strRE true "Scrape") (.rep1 isWsChar))
    (.rep1 nonWsChar) .eps

/-- `[Ss]ecret\s+code\s+is\s+(\d+)` (no flags), main.py line 227. -/
def searchSecretCode (s : String) : Option String :=
  searchGroup s
    (.seq (.cls (fun c => c = 'S' || c = 's'))
      (.seq (strRE false "ecret")
        (.seq (.rep1 isWsChar)
          (.seq (strRE false "code")
            (.seq (.rep1 isWsChar)
              (.seq (strRE false "is") (.rep1 isWsChar)))))))
    (.rep1 digitChar) .eps

/-- `\b(\d{5,})\b`, main.py line 232: a standalone run of five or more
digits (`\d{5,}` unrolled as four digits plus a nonempty greedy run). -/
def searchDigits5 (s : String) : Option String :=
  searchGroup s .bnd
    (.seq (.cls digitChar) (.seq (.cls digitChar) (.seq (.cls digitChar)
      (.seq (.cls digitChar) (.rep1 digitChar))))) .bnd

/-- `https?://[^\s<>"'()]+\.csv` (IGNORECASE), the first CSV pattern
(main.py line 243). -/
def csvPatA : RE :=
  .seq (strRE true "http") (.seq (.opt (.cls (chEq true 's')))
    (.seq (strRE true "://") (.seq (.rep1 csvUrlChar) (strRE true ".csv"))))

/-- The three CSV-URL patterns of main.py lines 242-252, tried in order;
the first has no group (`group(0)`), the other two capture group 1. -/
def searchCsvUrlRaw (s : String) : Option String :=
  match searchGroup s .eps csvPatA .eps with
  | some u => some u
  | none =>
    match searchGroup s (.seq (strRE true "href=") (.cls quoteChar))
        (.seq (.rep1 notQuote) (strRE true ".csv")) (.cls quoteChar) with
    | some u => some u
    | none =>
      searchGroup s (.cls (fun c => c = '('))
        (.seq (.rep1 notCParen) (strRE true ".csv")) (.cls (fun c => c = ')'))

/-- Python `str.strip('"\'()<>')` (main.py line 254). -/
def stripUrlJunk (s : String) : String :=
  let junk : Char → Bool := fun c =>
    c = Char.ofNat 34 || c = Char.ofNat 39 || c = '(' || c = ')' ||
    c = '<' || c = '>'
  ⟨((s.data.dropWhile junk).reverse.dropWhile junk).reverse⟩

/-- CSV-URL discovery over the combined text (main.py lines 248-256). -/
def findCsvUrl (s : String) : Option String :=
  (searchCsvUrlRaw s).map stripUrlJunk

/-- `[Cc]utoff[:\s]+(\d+)` (note: no IGNORECASE flag, and the class after
`utoff` admits only colons and whitespace), main.py line 272. -/
def searchCutoff (s : String) : Option Nat :=
  (searchGroup s
    (.seq (.cls (fun c => c = 'C' || c = 'c'))
      (.seq (strRE false "utoff") (.rep1 colonWs)))
    (.rep1 digitChar) .eps).map
    (fun d => d.data.foldl (fun a c => a * 10 + (c.toNat - 48)) 0)

/-- The filter-and-sum of the tabular branch (main.py lines 284-290):
`int(df[df[col] > cutoff][col].sum())` over the first numeric column. -/
def sumGtCutoff (col : List Int) (cutoff : Nat) : Int :=
  (col.filter (fun v => (cutoff : Int) < v)).sum

/-- Columns of the loaded CSV.  `pd.read_csv(url, header=None)` over
integer-valued cells yields a frame in which every column is numeric, so
`select_dtypes(include=['number'])` keeps them all and the first numeric
column (main.py lines 278-281) is the head of this list. -/
abbrev CsvCols := List (List Int)

/-- `solve_question(question, page_text, page_html, base_url)`.
Oracles: `fetchO` is `fetch_page_with_playwright` applied to the scrape URL
(its exception is NOT caught here and propagates, hence `.error`); `csvO`
is `pd.read_csv` (its failure IS caught, main.py line 296, and falls
through); `gem` is the model call of the fallback (caught at line 329,
yielding the literal marker "error"). -/
def solve_question (question page_text page_html base_url : String)
    (fetchO : String → Except String String)
    (csvO : String → Except String CsvCols)
    (gem : Except String String) : Except String AnswerValue :=
  let geminiFallback : Except String AnswerValue :=
    match gem with
    | .error _ => .ok (.str "error")
    | .ok t => .ok (typeAnswer (cleanAnswerText t))
  match searchScrape question with
  | some path =>
    let scrape_url := pyUrljoin base_url path
    match fetchO scrape_url with
    | .error e => .error e
    | .ok scraped =>
      match searchSecretCode scraped with
      | some code => .ok (.str code)
      | none =>
        match searchDigits5 scraped with
        | some code => .ok (.str code)
        | none => .ok (.str (pyStrip scraped))
  | none =>
    let combined := page_text ++ " " ++ page_html
    match findCsvUrl combined with
    | none => geminiFallback
    | some url0 =>
      let csv_url := if strStarts url0 "http" then url0
                     else pyUrljoin base_url url0
      match csvO csv_url with
      | .error _ => geminiFallback
      | .ok cols =>
        match searchCutoff combined with
        | none => geminiFallback
        | some cutoff =>
          match cols.head? with
          | some col => .ok (.int (sumGtCutoff col cutoff))
          | none => geminiFallback
/-! ### Chain Driver (`solve_quiz_chain`, main.py lines 50-89) -/

/-- The submission response dictionary as the driver reads it: truthiness
of `correct`, the optional next-hop `url`, the optional `reason`. -/
structure SubmitResponse where
  correct : Bool
  url : Option String
  reason : Option String
  deriving DecidableEq, Repr

/-- Outcome of one `solve_single_quiz` call as `solve_quiz_chain` sees it:
a structured dict, a falsy/non-dict result, or a raised exception. -/
inductive StepOutcome where
  | ok : SubmitResponse → StepOutcome
  | invalid : StepOutcome
  | exn : String → StepOutcome

/-- Python truthiness of `result.get('url')`: present and non-empty. -/
def urlTruthy : Option String → Bool
  | none => false
  | some s => !(s = "")

/-- How the chain ended: the clean break (`DONE`), the invalid-response
break, the exception break (`FAILED`), or the `while` condition turning
false (empty URL, or the step cap while still running). -/
inductive ChainStatus where
  | done
  | invalidResp
  | failed
  | stopped
  deriving DecidableEq, Repr

structure ChainResult where
  visited : List String
  quizCount : Nat
  status : ChainStatus
  deriving DecidableEq, Repr

/-- `max_quizzes` (main.py line 53). -/
def maxQuizzes : Nat := 10

/-- The `while current_url and quiz_count < max_quizzes` loop of
`solve_quiz_chain`.  `steps k u` abstracts the whole
`solve_single_quiz(email, secret, u)` call of iteration `k` (0-based);
`visited` records the URL of every iteration performed.  The `some v`/
`v = ""` split is exactly `if next_url:` (`urlTruthy`).  `fuel` only
guarantees structural recursion; with `fuel > maxQuizzes - quiz_count` the
loop condition, never the fuel, ends the recursion. -/
def chainGo (steps : Nat → String → StepOutcome) :
    Nat → String → Nat → ChainResult
  | 0, _, quiz_count => ⟨[], quiz_count, .stopped⟩
  | fuel + 1, current_url, quiz_count =>
    if ¬ current_url = "" ∧ quiz_count < maxQuizzes then
      match steps quiz_count current_url with
      | .exn _ => ⟨[current_url], quiz_count + 1, .failed⟩
      | .invalid => ⟨[current_url], quiz_count + 1, .invalidResp⟩
      | .ok r =>
        match r.url with
        | some v =>
          if v = "" then ⟨[current_url], quiz_count + 1, .done⟩
          else
            let t := chainGo steps fuel v (quiz_count + 1)
            ⟨current_url :: t.visited, t.quizCount, t.status⟩
        | none => ⟨[current_url], quiz_count + 1, .done⟩
    else ⟨[], quiz_count, .stopped⟩

/-- `solve_quiz_chain(email, secret, start_url)`: the loop from the start
URL with a zero step count. -/
def solve_quiz_chain (steps : Nat → String → StepOutcome)
    (start_url : String) : ChainResult :=
  chainGo steps (maxQuizzes + 1) start_url 0

/-! ### Retrying I/O wrappers (main.py lines 126-145 and 334-364) -/

structure RetryOut (α : Type) where
  result : α
  attempts : Nat
  sleeps : List Nat
  deriving DecidableEq, Repr

/-- The `for attempt in range(retries)` loop of
`fetch_page_with_playwright` (main.py lines 127-145): on success return the
page pair; on an exception sleep 5 seconds and retry, unless this was the
last attempt, in which case re-raise.  `att i` is the outcome of the body
at attempt `i`; `remaining` counts the loop iterations left.  (The fuel-0
row models Python's implicit `None` on range exhaustion; it is unreachable
for `retries = 3`.) -/
def fetchGo (att : Nat → Except String (String × String)) (retries : Nat) :
    Nat → Nat → RetryOut (Except String (String × String))
  | 0, _ => ⟨.error "range exhausted", 0, []⟩
  | remaining + 1, attempt =>
    match att attempt with
    | .ok v => ⟨.ok v, 1, []⟩
    | .error e =>
      if attempt < retries - 1 then
        let t := fetchGo att retries remaining (attempt + 1)
        ⟨t.result, t.attempts + 1, 5 :: t.sleeps⟩
      else ⟨.error e, 1, []⟩

/-- `fetch_page_with_playwright(url, retries=3)`; `att` abstracts one
Playwright fetch attempt of the URL, yielding `(visible_text, html)` or the
exception text. -/
def fetch_page_with_playwright
    (att : Nat → Except String (String × String)) :
    RetryOut (Except String (String × String)) :=
  fetchGo att 3 3 0

/-- Outcome of one `requests.post` attempt inside `submit_answer`: a 200
response with its parsed JSON, a non-200 status, or a raised exception. -/
inductive PostAttempt where
  | ok200 : SubmitResponse → PostAttempt
  | httpErr : Nat → PostAttempt
  | exn : String → PostAttempt

/-- The retry loop of `submit_answer` (main.py lines 351-364): a 200
response returns its JSON; any other status returns the structured failure
immediately; an exception sleeps 5 seconds and retries, unless this was the
last attempt, in which case the structured failure carries the exception
text.  Never raises. -/
def submitGo (att : Nat → PostAttempt) (retries : Nat) :
    Nat → Nat → RetryOut SubmitResponse
  | 0, _ => ⟨⟨false, none, some "range exhausted"⟩, 0, []⟩
  | remaining + 1, attempt =>
    match att attempt with
    | .ok200 r => ⟨r, 1, []⟩
    | .httpErr code => ⟨⟨false, none, some ("HTTP " ++ toString code)⟩, 1, []⟩
    | .exn e =>
      if attempt < retries - 1 then
        let t := submitGo att retries remaining (attempt + 1)
        ⟨t.result, t.attempts + 1, 5 :: t.sleeps⟩
      else ⟨⟨false, none, some e⟩, 1, []⟩

/-- `submit_answer(submit_url, email, secret, quiz_url, answer, retries=3)`.
The URL is made absolute against the quiz URL when relative (main.py lines
337-338); `att u i` abstracts the POST of the fixed JSON payload to `u` at
attempt `i`. -/
def submit_answer (submit_url quiz_url : String)
    (att : String → Nat → PostAttempt) : RetryOut SubmitResponse :=
  let u := if strStarts submit_url "http" then submit_url
           else pyUrljoin quiz_url submit_url
  submitGo (att u) 3 3 0
/-! ### Declarative semantics and soundness of the matcher

`Matches t r i j` says the regex `r` can match the span `[i, j)` of `t`;
`reMt_sound` shows every success of the evaluator arises from such a span.
Only this direction is needed below (to show that a text without the
required literal substring cannot produce a match, and to read off
properties of matched spans). -/

/-- The character at position `n` of `t` exists and satisfies `p`. -/
def charAtP (t : List Char) (n : Nat) (p : Char → Bool) : Prop :=
  ∃ c, t.get? n = some c ∧ p c = true

inductive Matches (t : List Char) : RE → Nat → Nat → Prop where
  | eps (i : Nat) : Matches t .eps i i
  | bnd (i : Nat) : wordBoundary t i = true → Matches t .bnd i i
  | cls (p : Char → Bool) (i : Nat) : charAtP t i p →
      Matches t (.cls p) i (i + 1)
  | rep1 (p : Char → Bool) (i d : Nat) : 1 ≤ d →
      (∀ m, m < d → charAtP t (i + m) p) → Matches t (.rep1 p) i (i + d)
  | rep0 (p : Char → Bool) (i d : Nat) :
      (∀ m, m < d → charAtP t (i + m) p) → Matches t (.rep0 p) i (i + d)
  | opt1 (r : RE) (i j : Nat) : Matches t r i j → Matches t (.opt r) i j
  | opt0 (r : RE) (i : Nat) : Matches t (.opt r) i i
  | seqm (a b : RE) (i j e : Nat) : Matches t a i j → Matches t b j e →
      Matches t (.seq a b) i e

theorem runLen_charAt (p : Char → Bool) :
    ∀ (l : List Char) (m : Nat), m < runLen p l → charAtP l m p := by
  intro l
  induction l with
  | nil => intro m h; simp [runLen] at h
  | cons c r ih =>
    intro m h
    rw [runLen] at h
    by_cases hc : p c = true
    · simp only [hc, if_true] at h
      cases m with
      | zero => exact ⟨c, rfl, hc⟩
      | succ m' => exact ih m' (by omega)
    · simp [hc] at h

theorem tryDown_sound {α : Type} (k : Nat → Option α) (i lo : Nat) :
    ∀ (L : Nat) (x : α), tryDown k i lo L = some x →
      ∃ d, lo ≤ d ∧ d ≤ L ∧ k (i + d) = some x := by
  intro L
  induction L with
  | zero =>
    intro x h
    simp only [tryDown] at h
    by_cases hlo : lo = 0
    · simp only [hlo, if_true] at h
      exact ⟨0, by omega, by omega, h⟩
    · simp [hlo] at h
  | succ L ih =>
    intro x h
    simp only [tryDown] at h
    by_cases hlt : L + 1 < lo
    · simp [hlt] at h
    · simp only [hlt, if_false] at h
      cases hk : k (i + (L + 1)) with
      | some y =>
        rw [hk] at h
        cases h
        exact ⟨L + 1, by omega, Nat.le_refl _, hk⟩
      | none =>
        rw [hk] at h
        obtain ⟨d, h1, h2, h3⟩ := ih x h
        exact ⟨d, h1, by omega, h3⟩

theorem reMt_sound {α : Type} (t : List Char) :
    ∀ (r : RE) (i : Nat) (k : Nat → Option α) (x : α),
      reMt t r i k = some x → ∃ j, Matches t r i j ∧ k j = some x := by
  intro r
  induction r with
  | eps =>
    intro i k x h
    exact ⟨i, .eps i, by simpa [reMt] using h⟩
  | bnd =>
    intro i k x h
    simp only [reMt] at h
    by_cases hb : wordBoundary t i = true
    · exact ⟨i, .bnd i hb, by simpa [hb] using h⟩
    · simp [hb] at h
  | cls p =>
    intro i k x h
    simp only [reMt] at h
    cases hg : t.get? i with
    | none => rw [hg] at h; simp at h
    | some c =>
      rw [hg] at h
      by_cases hp : p c = true
      · exact ⟨i + 1, .cls p i ⟨c, hg, hp⟩, by simpa [hp] using h⟩
      · simp [hp] at h
  | rep1 p =>
    intro i k x h
    simp only [reMt] at h
    obtain ⟨d, h1, h2, h3⟩ := tryDown_sound k i 1 _ x h
    refine ⟨i + d, .rep1 p i d h1 ?_, h3⟩
    intro m hm
    obtain ⟨c, hc1, hc2⟩ := runLen_charAt p (t.drop i) m (by omega)
    rw [List.get?_drop] at hc1
    exact ⟨c, hc1, hc2⟩
  | rep0 p =>
    intro i k x h
    simp only [reMt] at h
    obtain ⟨d, _, h2, h3⟩ := tryDown_sound k i 0 _ x h
    refine ⟨i + d, .rep0 p i d ?_, h3⟩
    intro m hm
    obtain ⟨c, hc1, hc2⟩ := runLen_charAt p (t.drop i) m (by omega)
    rw [List.get?_drop] at hc1
    exact ⟨c, hc1, hc2⟩
  | opt r ih =>
    intro i k x h
    simp only [reMt] at h
    cases hr : reMt t r i k with
    | some y =>
      rw [hr] at h
      cases h
      obtain ⟨j, hm, hk⟩ := ih i k x hr
      exact ⟨j, .opt1 r i j hm, hk⟩
    | none =>
      rw [hr] at h
      exact ⟨i, .opt0 r i, h⟩
  | seq a b iha ihb =>
    intro i k x h
    simp only [reMt] at h
    obtain ⟨j, hma, hcont⟩ := iha i _ x h
    obtain ⟨e, hmb, hk⟩ := ihb j k x hcont
    exact ⟨e, .seqm a b i j e hma hmb, hk⟩

/-- Inversion for literal regexes: the span has the literal's length and
the text matches the literal character by character. -/
theorem litRE_sound (t : List Char) (ci : Bool) :
    ∀ (l : List Char) (i j : Nat),
      Matches t (l.foldr (fun c r => RE.seq (.cls (chEq ci c)) r) .eps) i j →
      j = i + l.length ∧
        ∀ m c0, l.get? m = some c0 →
          ∃ c, t.get? (i + m) = some c ∧ chEq ci c0 c = true := by
  intro l
  induction l with
  | nil =>
    intro i j h
    simp only [List.foldr] at h
    cases h
    exact ⟨by simp, fun m c0 hm => by simp at hm⟩
  | cons c r ih =>
    intro i j h
    simp only [List.foldr] at h
    cases h with
    | seqm _ _ _ j1 _ h1 h2 =>
      cases h1 with
      | cls _ _ hc =>
        obtain ⟨hj, hch⟩ := ih (i + 1) j h2
        refine ⟨by simp [hj]; omega, ?_⟩
        intro m c0 hm
        cases m with
        | zero =>
          obtain ⟨c2, hg, hp⟩ := hc
          have hcc : c0 = c := by simpa using hm.symm
          subst hcc
          exact ⟨c2, by simpa using hg, hp⟩
        | succ m' =>
          obtain ⟨c2, hg, hp⟩ := hch m' c0 (by simpa using hm)
          exact ⟨c2, by rw [show i + (m' + 1) = i + 1 + m' by omega]; exact hg, hp⟩

/-- CI comparison is implied by exact comparison. -/
theorem chEq_true_of_chEq (ci : Bool) (a b : Char) (h : chEq ci a b = true) :
    chEq true a b = true := by
  cases ci with
  | true => exact h
  | false =>
    have hab : a = b := by simpa [chEq] using h
    simp [chEq, hab]

/-- Character-by-character facts assemble into a CI prefix test. -/
theorem startsAtCI_intro (t : List Char) :
    ∀ (l : List Char) (i : Nat),
      (∀ m c0, l.get? m = some c0 →
        ∃ c, t.get? (i + m) = some c ∧ chEq true c0 c = true) →
      startsAtCI t i l = true := by
  intro l
  induction l with
  | nil => intro i _; rfl
  | cons c r ih =>
    intro i h
    obtain ⟨c2, hg, hp⟩ := h 0 c rfl
    rw [show i + 0 = i by omega] at hg
    simp only [startsAtCI]
    rw [hg]
    have h2 : startsAtCI t (i + 1) r = true := by
      apply ih
      intro m c0 hm
      obtain ⟨cc, hgg, hpp⟩ := h (m + 1) c0 (by simpa using hm)
      exact ⟨cc, by rwa [show i + (m + 1) = i + 1 + m by omega] at hgg, hpp⟩
    simp only [chEq, if_true, beq_iff_eq] at hp
    simp [h2, hp]

/-! ### Bridge lemmas: a text without `https://` defeats the URL regexes -/

theorem searchPat2_none_of_noHttps (s : String) (h : hasHttpsCI s = false) :
    searchPat2 s = none := by
  cases hs : searchPat2 s with
  | none => rfl
  | some u =>
    exfalso
    simp only [searchPat2, searchGroup] at hs
    cases hsp : searchSpan s.data .eps pat2Grp .eps with
    | none => rw [hsp] at hs; simp at hs
    | some je =>
      clear hs
      simp only [searchSpan] at hsp
      obtain ⟨i, hi, hf⟩ := List.exists_of_findSome?_eq_some hsp
      simp only [reMt] at hf
      obtain ⟨j, hm, _⟩ := reMt_sound s.data pat2Grp i (fun e => some (i, e)) je hf
      unfold pat2Grp at hm
      cases hm with
      | seqm _ _ _ j1 _ h1 _ =>
        obtain ⟨_, hch⟩ := litRE_sound s.data true "https://".data i j1 h1
        have hst : startsAtCI s.data i "https://".data = true :=
          startsAtCI_intro s.data "https://".data i hch
        have hany : hasHttpsCI s = true := by
          unfold hasHttpsCI
          rw [List.any_eq_true]
          exact ⟨i, hi, hst⟩
        rw [h] at hany
        exact Bool.noConfusion hany

theorem faGo_ex (t : List Char) (grp : RE) :
    ∀ (fuel i : Nat), faGo t grp fuel i ≠ [] →
      ∃ i2 e, i2 ∈ List.range (t.length + 1) ∧
        reMt t grp i2 (fun e => some e) = some e := by
  intro fuel
  induction fuel with
  | zero => intro i h; simp [faGo] at h
  | succ f ih =>
    intro i h
    simp only [faGo] at h
    by_cases hgt : i > t.length
    · simp [hgt] at h
    · rw [if_neg hgt] at h
      cases hm : reMt t grp i (fun e => some e) with
      | some e => exact ⟨i, e, by rw [List.mem_range]; omega, hm⟩
      | none => rw [hm] at h; exact ih _ h

theorem findall_nil_of_noHttps (s : String) (h : hasHttpsCI s = false) :
    findallUrls s = [] := by
  cases hf : findallUrls s with
  | nil => rfl
  | cons a l =>
    exfalso
    have hne : faGo s.data urlTokGrp (s.data.length + 2) 0 ≠ [] := by
      intro hnil
      rw [findallUrls, findallStr, hnil] at hf
      simp at hf
    obtain ⟨i2, e, hi2, hm⟩ := faGo_ex s.data urlTokGrp _ 0 hne
    obtain ⟨j, hmat, _⟩ := reMt_sound s.data urlTokGrp i2 (fun e => some e) e hm
    unfold urlTokGrp at hmat
    cases hmat with
    | seqm _ _ _ j1 _ h1 _ =>
      obtain ⟨_, hch⟩ := litRE_sound s.data false "https://".data i2 j1 h1
      have hst : startsAtCI s.data i2 "https://".data = true := by
        apply startsAtCI_intro
        intro m c0 hmc
        obtain ⟨c, hg, hc⟩ := hch m c0 hmc
        exact ⟨c, hg, chEq_true_of_chEq false c0 c hc⟩
      have hany : hasHttpsCI s = true := by
        unfold hasHttpsCI
        rw [List.any_eq_true]
        exact ⟨i2, hi2, hst⟩
      rw [h] at hany
      exact Bool.noConfusion hany

/-! ### Reading off the shape of a second-pattern match (for claim C3) -/

theorem listEqCI_intro (t : List Char) :
    ∀ (pat : List Char) (i : Nat),
      (∀ m c0, pat.get? m = some c0 →
        ∃ c, t.get? (i + m) = some c ∧ chEq true c0 c = true) →
      i + pat.length ≤ t.length →
      listEqCI ((t.drop i).take pat.length) pat = true := by
  intro pat
  induction pat with
  | nil => intro i _ _; rfl
  | cons c r ih =>
    intro i h hlen
    obtain ⟨c2, hg, hp⟩ := h 0 c rfl
    rw [Nat.add_zero] at hg
    have hilt : i < t.length := by
      rw [List.get?_eq_some] at hg
      exact hg.1
    have hgetl : t[i] = c2 := by
      rw [List.get?_eq_some] at hg
      obtain ⟨h1, h2⟩ := hg
      simpa [List.get_eq_getElem] using h2
    rw [List.drop_eq_getElem_cons hilt, hgetl]
    simp only [List.length_cons, List.take_succ_cons, listEqCI]
    have hrec : listEqCI ((t.drop (i + 1)).take r.length) r = true := by
      apply ih
      · intro m c0 hm
        obtain ⟨cc, hgg, hpp⟩ := h (m + 1) c0 (by simpa using hm)
        exact ⟨cc, by rwa [show i + (m + 1) = i + 1 + m by omega] at hgg, hpp⟩
      · simp only [List.length_cons] at hlen
        omega
    simp only [chEq, if_true, beq_iff_eq] at hp
    simp [hrec, hp]

/-- Every hit of the second submit-URL regex is a slice of the page text
that ends (case-insensitively) in `/submit`. -/
theorem searchPat2_some_shape (s u : String) (h : searchPat2 s = some u) :
    ∃ j e, j ≤ e ∧ e ≤ s.data.length ∧ u = strSlice s j e ∧
      endsWithCI u "/submit" = true := by
  simp only [searchPat2, searchGroup] at h
  cases hsp : searchSpan s.data .eps pat2Grp .eps with
  | none => rw [hsp] at h; simp at h
  | some je =>
    rw [hsp] at h
    simp only [Option.map_some'] at h
    simp only [searchSpan] at hsp
    obtain ⟨i, _, hf⟩ := List.exists_of_findSome?_eq_some hsp
    simp only [reMt] at hf
    obtain ⟨j2, hm, hje⟩ := reMt_sound s.data pat2Grp i (fun e => some (i, e)) je hf
    have hje2 : je = (i, j2) := by
      simpa using hje.symm
    subst hje2
    unfold pat2Grp at hm
    cases hm with
    | seqm _ _ _ j1 _ h1 hrest =>
      obtain ⟨hj1, _⟩ := litRE_sound s.data true "https://".data i j1 h1
      cases hrest with
      | seqm _ _ _ jm _ hrep hlit2 =>
        obtain ⟨hj2, hch2⟩ := litRE_sound s.data true "/submit".data jm j2 hlit2
        have hjm : j1 ≤ jm := by
          cases hrep with
          | rep1 _ _ d hd _ => omega
        have hlen7 : ("/submit".data).length = 7 := by decide
        have hlast : ∃ c, s.data.get? (jm + 6) = some c := by
          obtain ⟨c, hg, _⟩ := hch2 6 't' (by decide)
          exact ⟨c, hg⟩
        have hjlt : jm + 6 < s.data.length := by
          obtain ⟨c, hg⟩ := hlast
          rw [List.get?_eq_some] at hg
          exact hg.1
        have hij : i ≤ j2 := by
          rw [hlen7] at hj2
          omega
        have hej : j2 ≤ s.data.length := by
          rw [hlen7] at hj2
          omega
        have hu : u = strSlice s i j2 := by
          simpa using h.symm
        refine ⟨i, j2, hij, hej, hu, ?_⟩
        have hudata : u.data = (s.data.drop i).take (j2 - i) := by
          rw [hu]
          rfl
        have hulen : u.data.length = j2 - i := by
          rw [hudata, List.length_take, List.length_drop]
          omega
        have hseven : ("/submit".data).length ≤ u.data.length := by
          rw [hulen, hlen7]
          rw [hlen7] at hj2
          omega
        have hdropeq :
            u.data.drop (u.data.length - ("/submit".data).length) =
              (s.data.drop jm).take 7 := by
          rw [hulen, hlen7, hudata]
          rw [List.drop_take, List.drop_drop]
          have e1 : j2 - i - (j2 - i - 7) = 7 := by
            rw [hlen7] at hj2
            omega
          have e2 : i + (j2 - i - 7) = jm := by
            rw [hlen7] at hj2
            omega
          rw [e1, e2]
        have heq : listEqCI ((s.data.drop jm).take 7) "/submit".data = true := by
          have := listEqCI_intro s.data "/submit".data jm hch2
            (by rw [hlen7]; omega)
          rwa [hlen7] at this
        unfold endsWithCI
        rw [hdropeq]
        have h7 : (7 : Nat) ≤ u.data.length := by
          rw [hlen7] at hseven
          exact hseven
        simp only [Bool.and_eq_true, decide_eq_true_eq]
        exact ⟨hseven, heq⟩

/-! ### The two typing orders agree -/

theorem mem_dropWhile_of_mem {p : Char → Bool} :
    ∀ (l : List Char) (c : Char), c ∈ l → p c = false → c ∈ l.dropWhile p := by
  intro l
  induction l with
  | nil => intro c h _; cases h
  | cons a r ih =>
    intro c h hp
    cases hpa : p a with
    | true =>
      rw [List.dropWhile_cons_of_pos hpa]
      cases h with
      | head => rw [hpa] at hp; cases hp
      | tail _ hm => exact ih c hm hp
    | false =>
      rw [List.dropWhile_cons_of_neg (by simp [hpa])]
      exact h

/-- The digit-run consumer never swallows a dot: if the input contains one,
so does the unconsumed rest. -/
theorem duGo_dot :
    ∀ (n : Nat) (cs : List Char), cs.length ≤ n →
      ∀ (acc len v l : Nat) (r : List Char),
        duGo acc len cs = some (v, l, r) →
        Char.ofNat 46 ∈ cs → Char.ofNat 46 ∈ r := by
  intro n
  induction n with
  | zero =>
    intro cs hn acc len v l r _ hm
    cases cs with
    | nil => cases hm
    | cons c rest => simp at hn
  | succ n ih =>
    intro cs hn acc len v l r h hm
    cases cs with
    | nil => cases hm
    | cons c rest =>
      unfold duGo at h
      by_cases hd : digitChar c = true
      · rw [if_pos hd] at h
        cases hm with
        | head =>
          exfalso
          rw [show digitChar (Char.ofNat 46) = false from by decide] at hd
          cases hd
        | tail _ hm2 =>
          exact ih rest (by simp at hn; omega) _ _ v l r h hm2
      · rw [if_neg hd] at h
        by_cases hu : c = Char.ofNat 95
        · rw [if_pos hu] at h
          by_cases hz : len = 0
          · rw [if_pos hz] at h
            cases h
            exact hm
          · rw [if_neg hz] at h
            cases rest with
            | nil => cases h
            | cons c2 r2 =>
              replace h :
                  (if digitChar c2 = true then
                    duGo (acc * 10 + (c2.toNat - 48)) (len + 1) r2
                  else none) = some (v, l, r) := h
              by_cases hd2 : digitChar c2 = true
              · rw [if_pos hd2] at h
                have hm3 : Char.ofNat 46 ∈ r2 := by
                  cases hm with
                  | head =>
                    exfalso
                    exact absurd hu (by decide)
                  | tail _ hm2 =>
                    cases hm2 with
                    | head =>
                      exfalso
                      rw [show digitChar (Char.ofNat 46) = false from by decide]
                        at hd2
                      cases hd2
                    | tail _ hm4 => exact hm4
                exact ih r2 (by simp at hn; omega) _ _ v l r h hm3
              · rw [if_neg hd2] at h
                cases h
        · rw [if_neg hu] at h
          cases h
          exact hm

/-- A character that is not a sign survives `stripSign`. -/
theorem stripSign_mem (c0 : Char) (h0 : ¬ c0 = '+') (h0m : ¬ c0 = '-') :
    ∀ (cs : List Char), c0 ∈ cs → c0 ∈ (stripSign cs).2 := by
  intro cs hm
  cases cs with
  | nil => cases hm
  | cons c r =>
    show c0 ∈
      (if c = '+' then ((false, r) : Bool × List Char)
       else if c = '-' then (true, r) else (false, c :: r)).2
    by_cases h1 : c = '+'
    · rw [if_pos h1]
      cases hm with
      | head => exact absurd h1 h0
      | tail _ hm2 => exact hm2
    · rw [if_neg h1]
      by_cases h2 : c = '-'
      · rw [if_pos h2]
        cases hm with
        | head => exact absurd h2 h0m
        | tail _ hm2 => exact hm2
      · rw [if_neg h2]
        exact hm

theorem pyParseInt_none_of_dot (a : String) (h : hasDot a = true) :
    pyParseInt a = none := by
  have hmem : Char.ofNat 46 ∈ a.data := by
    unfold hasDot at h
    rw [List.any_eq_true] at h
    obtain ⟨c, hc, he⟩ := h
    have hce : c = Char.ofNat 46 := by simpa using he
    rwa [hce] at hc
  have hmem2 :
      Char.ofNat 46 ∈
        ((a.data.dropWhile isWsChar).reverse.dropWhile isWsChar).reverse := by
    rw [List.mem_reverse]
    apply mem_dropWhile_of_mem
    · rw [List.mem_reverse]
      exact mem_dropWhile_of_mem a.data (Char.ofNat 46) hmem (by decide)
    · decide
  have hmem3 :
      Char.ofNat 46 ∈
        (stripSign
          ((a.data.dropWhile isWsChar).reverse.dropWhile isWsChar).reverse).2 :=
    stripSign_mem (Char.ofNat 46) (by decide) (by decide) _ hmem2
  unfold pyParseInt
  cases hdu :
      duGo 0 0
        (stripSign
          ((a.data.dropWhile isWsChar).reverse.dropWhile isWsChar).reverse).2 with
  | none => simp [hdu]
  | some t =>
    obtain ⟨v, l, r⟩ := t
    have hr : Char.ofNat 46 ∈ r :=
      duGo_dot _ _ (Nat.le_refl _) 0 0 v l r hdu hmem3
    cases r with
    | nil => cases hr
    | cons x xs => simp [hdu]

/-- The source types the fallback answer float-first-under-a-dot; the
specification words it integer-first.  The two orders agree because a
string containing a dot never parses as a Python integer. -/
theorem typeAnswer_eq_specOrder (a : String) :
    typeAnswer a = typeAnswerSpecOrder a := by
  unfold typeAnswer typeAnswerSpecOrder
  by_cases hd : hasDot a = true
  · rw [if_pos hd, pyParseInt_none_of_dot a hd]
    simp [hd]
  · rw [if_neg hd]
    cases pyParseInt a with
    | none => simp [hd]
    | some n => simp

/-! ### Monotonicity of the tabular sum -/

theorem sumGtCutoff_anti (col : List Int) :
    ∀ (c1 c2 : Nat), c1 ≤ c2 → sumGtCutoff col c2 ≤ sumGtCutoff col c1 := by
  induction col with
  | nil => intro c1 c2 _; simp [sumGtCutoff]
  | cons v rest ih =>
    intro c1 c2 h
    have hc : (c1 : Int) ≤ (c2 : Int) := by exact_mod_cast h
    have h0 : (0 : Int) ≤ (c1 : Int) := Int.natCast_nonneg c1
    have hrec := ih c1 c2 h
    unfold sumGtCutoff at hrec ⊢
    rw [List.filter_cons, List.filter_cons]
    by_cases h2 : ((c2 : Int) < v)
    · have h1 : (c1 : Int) < v := lt_of_le_of_lt hc h2
      rw [if_pos (show decide ((c2 : Int) < v) = true by simp [h2]),
        if_pos (show decide ((c1 : Int) < v) = true by simp [h1]),
        List.sum_cons, List.sum_cons]
      exact add_le_add_left hrec v
    · by_cases h1 : ((c1 : Int) < v)
      · have hv : (0 : Int) < v := lt_of_le_of_lt h0 h1
        rw [if_neg (show ¬ decide ((c2 : Int) < v) = true by simp [h2]),
          if_pos (show decide ((c1 : Int) < v) = true by simp [h1]),
          List.sum_cons]
        exact le_trans hrec (le_add_of_nonneg_left hv.le)
      · rw [if_neg (show ¬ decide ((c2 : Int) < v) = true by simp [h2]),
          if_neg (show ¬ decide ((c1 : Int) < v) = true by simp [h1])]
        exact hrec

/-! ### Unfolding lemmas for one driver iteration -/

theorem chainGo_exn (steps : Nat → String → StepOutcome) (fuel : Nat)
    (u : String) (q : Nat) (e : String)
    (hu : ¬ u = "") (hq : q < maxQuizzes) (hs : steps q u = .exn e) :
    chainGo steps (fuel + 1) u q = ⟨[u], q + 1, .failed⟩ := by
  simp only [chainGo]
  rw [if_pos (And.intro hu hq)]
  simp only [hs]

theorem chainGo_invalid (steps : Nat → String → StepOutcome) (fuel : Nat)
    (u : String) (q : Nat)
    (hu : ¬ u = "") (hq : q < maxQuizzes) (hs : steps q u = .invalid) :
    chainGo steps (fuel + 1) u q = ⟨[u], q + 1, .invalidResp⟩ := by
  simp only [chainGo]
  rw [if_pos (And.intro hu hq)]
  simp only [hs]

theorem chainGo_done (steps : Nat → String → StepOutcome) (fuel : Nat)
    (u : String) (q : Nat) (r : SubmitResponse)
    (hu : ¬ u = "") (hq : q < maxQuizzes) (hs : steps q u = .ok r)
    (hr : urlTruthy r.url = false) :
    chainGo steps (fuel + 1) u q = ⟨[u], q + 1, .done⟩ := by
  simp only [chainGo]
  rw [if_pos (And.intro hu hq)]
  simp only [hs]
  cases hru : r.url with
  | none => simp
  | some v =>
    have hv : v = "" := by
      rw [hru] at hr
      simpa [urlTruthy] using hr
    simp [hv]

theorem chainGo_step (steps : Nat → String → StepOutcome) (fuel : Nat)
    (u v : String) (q : Nat) (r : SubmitResponse)
    (hu : ¬ u = "") (hq : q < maxQuizzes) (hs : steps q u = .ok r)
    (hr : r.url = some v) (hv : ¬ v = "") :
    chainGo steps (fuel + 1) u q =
      ⟨u :: (chainGo steps fuel v (q + 1)).visited,
        (chainGo steps fuel v (q + 1)).quizCount,
        (chainGo steps fuel v (q + 1)).status⟩ := by
  simp only [chainGo]
  rw [if_pos (And.intro hu hq)]
  simp only [hs, hr]
  rw [if_neg hv]

theorem chainGo_stop (steps : Nat → String → StepOutcome) (fuel : Nat)
    (u : String) (q : Nat) (h : ¬ (¬ u = "" ∧ q < maxQuizzes)) :
    chainGo steps (fuel + 1) u q = ⟨[], q, .stopped⟩ := by
  simp only [chainGo]
  rw [if_neg h]

/-! ### The driver loop is bounded -/

theorem chainGo_le (steps : Nat → String → StepOutcome) :
    ∀ (fuel : Nat) (u : String) (q : Nat), q ≤ maxQuizzes →
      (chainGo steps fuel u q).visited.length + q ≤ maxQuizzes ∧
      (chainGo steps fuel u q).quizCount ≤ maxQuizzes := by
  intro fuel
  induction fuel with
  | zero =>
    intro u q h
    simp only [chainGo]
    exact ⟨by simpa using h, h⟩
  | succ f ih =>
    intro u q hq
    by_cases hcond : ¬ u = "" ∧ q < maxQuizzes
    · obtain ⟨hu, hql⟩ := hcond
      cases hs : steps q u with
      | exn e =>
        rw [chainGo_exn steps f u q e hu hql hs]
        exact ⟨by show 1 + q ≤ maxQuizzes; omega,
          by show q + 1 ≤ maxQuizzes; omega⟩
      | invalid =>
        rw [chainGo_invalid steps f u q hu hql hs]
        exact ⟨by show 1 + q ≤ maxQuizzes; omega,
          by show q + 1 ≤ maxQuizzes; omega⟩
      | ok r =>
        cases hru : r.url with
        | none =>
          rw [chainGo_done steps f u q r hu hql hs (by simp [hru, urlTruthy])]
          exact ⟨by show 1 + q ≤ maxQuizzes; omega,
            by show q + 1 ≤ maxQuizzes; omega⟩
        | some v =>
          by_cases hv : v = ""
          · rw [chainGo_done steps f u q r hu hql hs
              (by simp [hru, urlTruthy, hv])]
            exact ⟨by show 1 + q ≤ maxQuizzes; omega,
              by show q + 1 ≤ maxQuizzes; omega⟩
          · rw [chainGo_step steps f u v q r hu hql hs hru hv]
            obtain ⟨ha, hb⟩ := ih v (q + 1) (by omega)
            refine ⟨?_, hb⟩
            show (u :: (chainGo steps f v (q + 1)).visited).length + q ≤
              maxQuizzes
            rw [List.length_cons]
            omega
    · rw [chainGo_stop steps f u q hcond]
      exact ⟨by simpa using hq, hq⟩

/-! ## The claims -/

/-- C1: For every starting URL and every sequence of submission responses,
the Chain Driver performs at most 10 quiz steps — the visited list records
one URL per fetch/analyze/resolve/submit iteration and never holds more
than 10 entries, and the step counter never exceeds the configured maximum
of 10; once the count reaches 10 the `while` condition turns false and the
loop exits, regardless of how many next-hop URLs the submission endpoint
keeps returning. -/
theorem C1_driver_at_most_ten_steps (steps : Nat → String → StepOutcome)
    (start_url : String) :
    (solve_quiz_chain steps start_url).visited.length ≤ 10 ∧
    (solve_quiz_chain steps start_url).quizCount ≤ 10 := by
  obtain ⟨a, b⟩ := chainGo_le steps (maxQuizzes + 1) start_url 0 (Nat.zero_le _)
  simp only [maxQuizzes] at a b
  unfold solve_quiz_chain
  exact ⟨by simp only [maxQuizzes]; omega, by simp only [maxQuizzes]; omega⟩

/-- C2, counterexample: the page text "see https://example.com/page"
contains no discoverable submission URL (no occurrence of "submit" at all),
yet with the model unavailable the Analyzer returns that page's first URL,
not the hardcoded default endpoint — refuting "for every page text with no
discoverable submission URL it returns the hardcoded default endpoint". -/
theorem C2_counterexample_first_url_not_default :
    analyze_quiz_page "see https://example.com/page" (.error "model down") =
      ⟨"https://example.com/page", "see https://example.com/page"⟩ ∧
    hasSub (lowerStr "see https://example.com/page") "submit" = false ∧
    ¬ ("https://example.com/page" = defaultSubmitUrl) := by
  refine ⟨by decide, by decide, by decide⟩

/-- C2, amended: the Page Analyzer is total — it always produces a
`PageAnalysis` with a `submit_url` — and it returns the hardcoded default
endpoint exactly when every tier comes up empty: the direct instruction
pattern finds nothing, the page text contains no `https://` URL at all
(so the second pattern and the URL scan find nothing), and the model step
yields no URL (it failed or its response contains none). -/
theorem C2_default_requires_no_url_anywhere (page_text : String)
    (gem : Except String String)
    (h1 : searchPat1 page_text = none)
    (h2 : hasHttpsCI page_text = false)
    (h3 : gemUrlOf gem = none) :
    analyze_quiz_page page_text gem =
      ⟨defaultSubmitUrl, pyTake page_text 500⟩ := by
  unfold analyze_quiz_page
  rw [h1, searchPat2_none_of_noHttps page_text h2,
    findall_nil_of_noHttps page_text h2, h3]
  rfl

/-- C2, witness: the amended theorem applied to the URL-free page text
"No links here." with a failed model call. -/
theorem C2_witness :
    searchPat1 "No links here." = none ∧
    hasHttpsCI "No links here." = false ∧
    gemUrlOf (Except.error "down") = none ∧
    analyze_quiz_page "No links here." (.error "down") =
      ⟨defaultSubmitUrl, pyTake "No links here." 500⟩ :=
  ⟨by decide, by decide, rfl,
    C2_default_requires_no_url_anywhere "No links here." (.error "down")
      (by decide) (by decide) rfl⟩

/-- C3, counterexample: the page text contains the well-formed URL
`https://example.com/submit/extra`, whose path contains a `/submit`
segment, but the Analyzer returns the truncated `https://example.com/submit`
instead of that exact URL — refuting "returns that exact URL" for URLs that
merely contain (rather than end in) a `/submit` segment. -/
theorem C3_counterexample_truncated_url :
    analyze_quiz_page "Go to https://example.com/submit/extra now"
        (.error "m") =
      ⟨"https://example.com/submit",
        "Go to https://example.com/submit/extra now"⟩ ∧
    hasSub "Go to https://example.com/submit/extra now"
      "https://example.com/submit/extra" = true ∧
    ¬ ("https://example.com/submit" = "https://example.com/submit/extra") := by
  refine ⟨by decide, by decide, by decide⟩

/-- C3, amended: whenever the direct pattern scan finds a `/submit` URL
(the first instruction pattern finds nothing and the second pattern matches
`u`), the Analyzer returns exactly `u` — a verbatim slice of the page text
ending (case-insensitively) in `/submit` — and the result is the same for
every model outcome, i.e. the language-model fallback is never consulted. -/
theorem C3_pattern_hit_returned_verbatim (page_text u : String)
    (gem : Except String String)
    (h1 : searchPat1 page_text = none)
    (h2 : searchPat2 page_text = some u) :
    analyze_quiz_page page_text gem = ⟨u, pyTake page_text 500⟩ ∧
    (∃ j e, j ≤ e ∧ e ≤ page_text.data.length ∧
      u = strSlice page_text j e) ∧
    endsWithCI u "/submit" = true := by
  obtain ⟨j, e, hje, hel, hslice, hends⟩ := searchPat2_some_shape page_text u h2
  refine ⟨?_, ⟨j, e, hje, hel, hslice⟩, hends⟩
  unfold analyze_quiz_page
  rw [h1, h2]
  rfl

/-- C3, witness: the amended theorem on a page text holding the URL
`https://h.example.com/submit`; the model outcome proposes a different URL
and is ignored. -/
theorem C3_witness :
    searchPat1 "Visit https://h.example.com/submit today" = none ∧
    searchPat2 "Visit https://h.example.com/submit today" =
      some "https://h.example.com/submit" ∧
    analyze_quiz_page "Visit https://h.example.com/submit today"
        (.ok "https://other.example/submit") =
      ⟨"https://h.example.com/submit",
        pyTake "Visit https://h.example.com/submit today" 500⟩ ∧
    endsWithCI "https://h.example.com/submit" "/submit" = true :=
  ⟨by decide, by decide,
    (C3_pattern_hit_returned_verbatim
      "Visit https://h.example.com/submit today"
      "https://h.example.com/submit" (.ok "https://other.example/submit")
      (by decide) (by decide)).1,
    (C3_pattern_hit_returned_verbatim
      "Visit https://h.example.com/submit today"
      "https://h.example.com/submit" (.ok "https://other.example/submit")
      (by decide) (by decide)).2.2⟩

/-- C4: at any live loop state (non-empty current URL, step count below
10), if the iteration's submission response is a structured dict whose
`url` field is absent or empty, the driver performs exactly that one step
and halts with the DONE outcome: the visited list holds only the current
URL, so no further fetch or submission attempt happens, whatever fuel
remains; in particular a `correct: true` response with no `url` key ends
the chain right there. -/
theorem C4_halt_when_no_next_url (steps : Nat → String → StepOutcome)
    (fuel : Nat) (u : String) (q : Nat) (r : SubmitResponse)
    (hu : ¬ u = "") (hq : q < 10)
    (hs : steps q u = .ok r) (hr : urlTruthy r.url = false) :
    chainGo steps (fuel + 1) u q = ⟨[u], q + 1, .done⟩ :=
  chainGo_done steps fuel u q r hu (by simp only [maxQuizzes]; omega) hs hr

/-- C4, witness: a first-step response `{correct: true}` with no `url` key
makes the whole chain stop after one step with the DONE outcome, even
though the oracle would keep offering next-hop URLs at later steps. -/
theorem C4_witness :
    solve_quiz_chain
        (fun k _ => if k = 0 then .ok ⟨true, none, none⟩
                    else .ok ⟨true, some "next", none⟩)
        "https://start" = ⟨["https://start"], 1, .done⟩ :=
  C4_halt_when_no_next_url
    (fun k _ => if k = 0 then .ok ⟨true, none, none⟩
                else .ok ⟨true, some "next", none⟩)
    10 "https://start" 0 ⟨true, none, none⟩ (by decide) (by decide) rfl rfl

/-- C5 (code bug): the spec's scenario — CSV rows `[[1],[15],[22],[3]]`
with the question/page phrase "cutoff of 10" — does not return 37: the
source's cutoff regex `[Cc]utoff[:\s]+(\d+)` requires only colons or
whitespace between "cutoff" and the number, so "cutoff of 10" yields no
match, the tabular branch declines despite having found and loaded the
CSV, and the Resolver degrades to the model fallback (here: the "error"
marker).  The same CSV with the phrase "cutoff: 10" does return 37,
confirming the filter-and-sum itself is implemented. -/
theorem C5_cutoff_of_phrase_not_matched :
    searchCutoff
      ("Download https://x.com/d.csv with a cutoff of 10" ++ " " ++ "") =
      none ∧
    findCsvUrl
      ("Download https://x.com/d.csv with a cutoff of 10" ++ " " ++ "") =
      some "https://x.com/d.csv" ∧
    solve_question "Sum the numbers above a cutoff of 10"
        "Download https://x.com/d.csv with a cutoff of 10" ""
        "https://q.example.com/a"
        (fun _ => .error "fetch not used")
        (fun u => if u = "https://x.com/d.csv" then .ok [[1, 15, 22, 3]]
                  else .error "404")
        (.error "model down") = .ok (.str "error") ∧
    solve_question "Sum the numbers above a cutoff: 10"
        "Download https://x.com/d.csv with a cutoff: 10" ""
        "https://q.example.com/a"
        (fun _ => .error "fetch not used")
        (fun u => if u = "https://x.com/d.csv" then .ok [[1, 15, 22, 3]]
                  else .error "404")
        (.error "model down") = .ok (.int 37) ∧
    ¬ ((Except.ok (AnswerValue.str "error") :
        Except String AnswerValue) = .ok (.int 37)) := by
  refine ⟨by decide, by rfl, by rfl, by rfl, by simp⟩

/-- C6: for a fixed CSV column, the filter-and-sum of the tabular branch is
monotonically non-increasing in the cutoff: raising the cutoff can only
drop rows, and every dropped value exceeds the (non-negative, digit-parsed)
lower cutoff, so the sum cannot grow. -/
theorem C6_tabular_sum_nonincreasing_in_cutoff (col : List Int)
    (c1 c2 : Nat) (h : c1 ≤ c2) :
    sumGtCutoff col c2 ≤ sumGtCutoff col c1 :=
  sumGtCutoff_anti col c1 c2 h

/-- C6, witness: on the column `[1, 15, 22, 3]`, the sum at cutoff 10 (37)
does not exceed the sum at cutoff 2 (40). -/
theorem C6_witness :
    (2 : Nat) ≤ 10 ∧
    sumGtCutoff [1, 15, 22, 3] 2 = 40 ∧
    sumGtCutoff [1, 15, 22, 3] 10 = 37 ∧
    sumGtCutoff [1, 15, 22, 3] 10 ≤ sumGtCutoff [1, 15, 22, 3] 2 :=
  ⟨by decide, by decide, by decide,
    C6_tabular_sum_nonincreasing_in_cutoff [1, 15, 22, 3] 2 10 (by decide)⟩

/-- C7: whenever the question text matches the `Scrape <path>` instruction
pattern, the Resolver fetches `<path>` resolved against the base URL and
returns: the digit string of a labeled "secret code is N" phrase when one
is present in the scraped text, else the first standalone run of five or
more digits, else the raw scraped text stripped of surrounding
whitespace. -/
theorem C7_scrape_branch_secret_code
    (question page_text page_html base_url path scraped : String)
    (fetchO : String → Except String String)
    (csvO : String → Except String CsvCols) (gem : Except String String)
    (h1 : searchScrape question = some path)
    (h2 : fetchO (pyUrljoin base_url path) = .ok scraped) :
    solve_question question page_text page_html base_url fetchO csvO gem =
      .ok (.str (match searchSecretCode scraped with
        | some code => code
        | none =>
          match searchDigits5 scraped with
          | some code => code
          | none => pyStrip scraped)) := by
  unfold solve_question
  simp only [h1, h2]
  cases searchSecretCode scraped with
  | some code => rfl
  | none =>
    cases searchDigits5 scraped with
    | some code => rfl
    | none => rfl

/-- C7, witness: question "Scrape /secret.html" against base
`https://quiz.example.com/q1` fetches
`https://quiz.example.com/secret.html`; scraped content
"The secret code is 48213." yields the answer string "48213". -/
theorem C7_witness :
    searchScrape "Scrape /secret.html" = some "/secret.html" ∧
    pyUrljoin "https://quiz.example.com/q1" "/secret.html" =
      "https://quiz.example.com/secret.html" ∧
    solve_question "Scrape /secret.html" "" "" "https://quiz.example.com/q1"
        (fun url => if url = "https://quiz.example.com/secret.html"
                    then .ok "The secret code is 48213." else .error "404")
        (fun _ => .error "no csv") (.error "model down") =
      .ok (.str "48213") :=
  ⟨by decide, by decide,
    (C7_scrape_branch_secret_code "Scrape /secret.html" "" ""
      "https://quiz.example.com/q1" "/secret.html"
      "The secret code is 48213."
      (fun url => if url = "https://quiz.example.com/secret.html"
                  then .ok "The secret code is 48213." else .error "404")
      (fun _ => .error "no csv") (.error "model down")
      (by decide) rfl).trans (by rfl)⟩

/-- C8: fetch and submission each make at most 3 attempts with a fixed
5-second sleep between consecutive failing attempts; when all 3 fetch
attempts raise, the fetch re-raises the last failure (an `.error` result
that propagates to the Driver), while when all 3 POST attempts raise, the
submission returns the structured failure `{correct: false, reason: <last
error text>}` instead of raising; a non-200 HTTP status likewise yields the
structured failure `{correct: false, reason: "HTTP <code>"}` (on the first
attempt, without retrying — "up to" 3 attempts). -/
theorem C8_retry_policy (att : Nat → Except String (String × String))
    (su qu : String) (postf postg : String → Nat → PostAttempt)
    (e0 e1 e2 f0 f1 f2 : String) (code : Nat)
    (ha0 : att 0 = .error e0) (ha1 : att 1 = .error e1)
    (ha2 : att 2 = .error e2)
    (hp0 : ∀ w, postf w 0 = .exn f0) (hp1 : ∀ w, postf w 1 = .exn f1)
    (hp2 : ∀ w, postf w 2 = .exn f2)
    (hg0 : ∀ w, postg w 0 = .httpErr code) :
    fetch_page_with_playwright att = ⟨.error e2, 3, [5, 5]⟩ ∧
    submit_answer su qu postf = ⟨⟨false, none, some f2⟩, 3, [5, 5]⟩ ∧
    submit_answer su qu postg =
      ⟨⟨false, none, some ("HTTP " ++ toString code)⟩, 1, []⟩ := by
  refine ⟨?_, ?_, ?_⟩
  · unfold fetch_page_with_playwright
    have s2 : fetchGo att 3 1 2 = ⟨.error e2, 1, []⟩ := by
      unfold fetchGo
      simp only [ha2]
      rw [if_neg (by omega)]
    have s1 : fetchGo att 3 2 1 = ⟨.error e2, 2, [5]⟩ := by
      unfold fetchGo
      simp only [ha1]
      rw [if_pos (by omega), s2]
    unfold fetchGo
    simp only [ha0]
    rw [if_pos (by omega), s1]
  · unfold submit_answer
    have s2 : submitGo (postf (if strStarts su "http" then su
        else pyUrljoin qu su)) 3 1 2 = ⟨⟨false, none, some f2⟩, 1, []⟩ := by
      unfold submitGo
      simp only [hp2]
      rw [if_neg (by omega)]
    have s1 : submitGo (postf (if strStarts su "http" then su
        else pyUrljoin qu su)) 3 2 1 = ⟨⟨false, none, some f2⟩, 2, [5]⟩ := by
      unfold submitGo
      simp only [hp1]
      rw [if_pos (by omega), s2]
    unfold submitGo
    simp only [hp0]
    rw [if_pos (by omega), s1]
  · unfold submit_answer
    unfold submitGo
    simp only [hg0]

/-- C8, witness: three timeouts re-raise the last timeout after sleeps
`[5, 5]`; three connection errors yield the structured failure after the
same sleeps; an HTTP 500 yields its structured failure on the very first
attempt with no sleep. -/
theorem C8_witness :
    fetch_page_with_playwright (fun _ => .error "timeout") =
      ⟨.error "timeout", 3, [5, 5]⟩ ∧
    submit_answer "https://h/submit" "https://h/q"
        (fun _ _ => .exn "conn refused") =
      ⟨⟨false, none, some "conn refused"⟩, 3, [5, 5]⟩ ∧
    submit_answer "https://h/submit" "https://h/q"
        (fun _ _ => .httpErr 500) =
      ⟨⟨false, none, some "HTTP 500"⟩, 1, []⟩ := by
  have h := C8_retry_policy (fun _ => .error "timeout")
    "https://h/submit" "https://h/q"
    (fun _ _ => .exn "conn refused") (fun _ _ => .httpErr 500)
    "timeout" "timeout" "timeout"
    "conn refused" "conn refused" "conn refused" 500
    rfl rfl rfl (fun _ => rfl) (fun _ => rfl) (fun _ => rfl) (fun _ => rfl)
  exact ⟨h.1, h.2.1, h.2.2.trans (by decide)⟩

/-- C9: when neither the scrape nor the tabular branch triggers, the
Resolver falls to the model: a failed model call yields the literal marker
string "error"; a successful one has its text stripped of whitespace, then
of backticks and quotes, and is typed exactly as the specification words
it — integer if it parses as one, else float if it contains a decimal
point and parses, else a yes/no/true/false boolean, else the raw cleaned
string (the source's float-before-int order coincides, since a string with
a dot never parses as a Python integer). -/
theorem C9_fallback_typing_and_error_marker
    (question page_text page_html base_url : String)
    (fetchO : String → Except String String)
    (csvO : String → Except String CsvCols) (gem : Except String String)
    (h1 : searchScrape question = none)
    (h2 : findCsvUrl (page_text ++ " " ++ page_html) = none) :
    solve_question question page_text page_html base_url fetchO csvO gem =
      .ok (match gem with
        | .error _ => .str "error"
        | .ok t => typeAnswerSpecOrder (cleanAnswerText t)) := by
  unfold solve_question
  simp only [h1, h2]
  cases gem with
  | error e => rfl
  | ok t =>
    simp only []
    rw [typeAnswer_eq_specOrder]

/-- C9, witness: with no scrape instruction and no CSV URL, the model
answer "` \"4.5\" `" is cleaned to "4.5" and typed as the float 4.5/1,
while a failed model call returns the marker string "error". -/
theorem C9_witness :
    searchScrape "What is the value?" = none ∧
    findCsvUrl ("No table here." ++ " " ++ "") = none ∧
    solve_question "What is the value?" "No table here." ""
        "https://q.example.com/a" (fun _ => .error "x")
        (fun _ => .error "y") (.ok " 4.5 ") =
      .ok (.float (mkRat 9 2)) ∧
    solve_question "What is the value?" "No table here." ""
        "https://q.example.com/a" (fun _ => .error "x")
        (fun _ => .error "y") (.error "model down") =
      .ok (.str "error") := by
  refine ⟨by decide, by decide, ?_, ?_⟩
  · have hval : typeAnswerSpecOrder (cleanAnswerText " 4.5 ") =
        .float (mkRat 9 2) := by decide
    exact (C9_fallback_typing_and_error_marker "What is the value?"
      "No table here." "" "https://q.example.com/a" (fun _ => .error "x")
      (fun _ => .error "y") (.ok " 4.5 ") (by decide) (by decide)).trans
      (congrArg Except.ok hval)
  · exact (C9_fallback_typing_and_error_marker "What is the value?"
      "No table here." "" "https://q.example.com/a" (fun _ => .error "x")
      (fun _ => .error "y") (.error "model down") (by decide)
      (by decide)).trans (by rfl)

/-- C10: at any live loop state, a structured submission response carrying
a non-empty next-hop `url` makes the driver advance to exactly that URL
and keep iterating with an incremented count — the rest of the run equals
the run restarted from the next-hop URL — and this is independent of the
`correct` field (the response `r` is arbitrary except for its `url`): an
incorrect answer does not terminate the chain while a next-hop URL is
present. -/
theorem C10_next_url_advances_regardless_of_correct
    (steps : Nat → String → StepOutcome) (fuel : Nat) (u v : String)
    (q : Nat) (r : SubmitResponse)
    (hu : ¬ u = "") (hq : q < 10) (hs : steps q u = .ok r)
    (hr : r.url = some v) (hv : ¬ v = "") :
    chainGo steps (fuel + 1) u q =
      ⟨u :: (chainGo steps fuel v (q + 1)).visited,
        (chainGo steps fuel v (q + 1)).quizCount,
        (chainGo steps fuel v (q + 1)).status⟩ :=
  chainGo_step steps fuel u v q r hu (by simp only [maxQuizzes]; omega)
    hs hr hv

/-- C10, witness: a `correct: false` response with next-hop URL
"https://n2" advances the chain to that URL (which then finishes), instead
of terminating on the wrong answer. -/
theorem C10_witness :
    solve_quiz_chain
        (fun k _ => if k = 0 then .ok ⟨false, some "https://n2", none⟩
                    else .ok ⟨true, none, none⟩)
        "https://n1" = ⟨["https://n1", "https://n2"], 2, .done⟩ := by
  have h := C10_next_url_advances_regardless_of_correct
    (fun k _ => if k = 0 then .ok ⟨false, some "https://n2", none⟩
                else .ok ⟨true, none, none⟩)
    10 "https://n1" "https://n2" 0 ⟨false, some "https://n2", none⟩
    (by decide) (by decide) rfl rfl (by decide)
  exact h.trans (by decide)
